import Mathlib

/-!
Verification of the helixbox-mcp gateway (src/src/index.ts and src/unnamed/part_000).

The development shallowly embeds the pieces of the program that carry state or
logic: the JSON value model and `safeStringify` (helper module), the NodeCache
based response cache and the inline get/compute/set pattern of the tool
handlers, the `transports` session registry with the POST router and the
GET/DELETE session handler, and the individual tool handlers named by the
claims.  Remote calls (`getChains`, `getTokens`, `getToken`, `getStatus`,
`fetch`, ...) are modelled as `Except String Value` parameters: an `.ok`
value is the JSON the remote returned, an `.error` is a thrown exception's
message.  Machine integers are `Int`/`Nat`; JavaScript bigints are `Int`.
-/

/-- Model of the JavaScript values the program manipulates: JSON values plus
`undefined` and `bigint` (the two non-JSON cases `safeStringify` has to cope
with).  Numbers are modelled as integers — no claim depends on fractional
doubles. -/
inductive Value where
  | vnull
  | vundefined
  | vbool (b : Bool)
  | vnum (n : Int)
  | vstr (s : String)
  | vbig (n : Int)
  | varr (elems : List Value)
  | vobj (fields : List (String × Value))

/-- JavaScript truthiness, as used by `if (!chains) { ... }` and
`if (sessionId && transports[sessionId])` in src/src/index.ts: `null`,
`undefined`, `false`, `0`, `0n` and `""` are falsy; every object and array is
truthy. -/
def truthy : Value → Bool
  | .vnull => false
  | .vundefined => false
  | .vbool b => b
  | .vnum n => n != 0
  | .vstr s => s != ""
  | .vbig n => n != 0
  | .varr _ => true
  | .vobj _ => true

/-- Decimal digit list of a natural number, most significant first; models the
digit production of `BigInt.prototype.toString()` (and of `Number` rendering
for integral values). -/
def natDigits (n : Nat) : List Char :=
  if _h : n < 10 then [Nat.digitChar n]
  else natDigits (n / 10) ++ [Nat.digitChar (n % 10)]
  decreasing_by
    exact Nat.div_lt_self (by omega) (by omega)

/-- Decimal rendering of a `Nat`. -/
def natDecimal (n : Nat) : String := ⟨natDigits n⟩

/-- Decimal rendering of an `Int`, as `BigInt.prototype.toString()` produces
it: an optional leading minus sign followed by the decimal digits of the
absolute value. -/
def intDecimal (n : Int) : String :=
  if n < 0 then "-" ++ natDecimal n.natAbs else natDecimal n.toNat

/-- Numeric value of a decimal digit character. -/
def digitVal (c : Char) : Nat := c.toNat - '0'.toNat

/-- Value of a most-significant-first decimal digit list. -/
def decDigits (l : List Char) : Nat :=
  l.foldl (fun a c => 10 * a + digitVal c) 0

/-- Reading an optionally-signed decimal string back as an integer. -/
def decParseInt (s : String) : Int :=
  match s.data with
  | c :: rest => if c = '-' then - (decDigits rest : Int) else (decDigits (c :: rest) : Int)
  | [] => 0

/-- Two-hex-digit rendering of a byte, used for `\u00XX` escapes. -/
def hexByte (n : Nat) : String :=
  ⟨[Nat.digitChar (n / 16 % 16), Nat.digitChar (n % 16)]⟩

/-- JSON string escaping of one character, as performed by `JSON.stringify`. -/
def escChar (c : Char) : String :=
  if c = '"' then "\\\""
  else if c = '\\' then "\\\\"
  else if c = '\n' then "\\n"
  else if c = '\r' then "\\r"
  else if c = '\t' then "\\t"
  else if c = '\x08' then "\\b"
  else if c = '\x0c' then "\\f"
  else if c.toNat < 32 then "\\u00" ++ hexByte c.toNat
  else String.singleton c

/-- JSON string escaping of a character list. -/
def escList : List Char → String
  | [] => ""
  | c :: l => escChar c ++ escList l

/-- JSON string escaping of a whole string. -/
def escString (s : String) : String := escList s.data

/-- A JSON string literal: escaped content between double quotes. -/
def jsonQuote (s : String) : String := "\"" ++ escString s ++ "\""

/-- Comma-joining of rendered members. -/
def commaJoin : List String → String
  | [] => ""
  | [s] => s
  | s :: rest => s ++ "," ++ commaJoin rest

mutual

/-- `JSON.stringify(v, replacer)` with the replacer of `safeStringify`
(src/unnamed/part_000): a bigint is first replaced by its decimal
`toString()` and therefore serialized as a JSON string; `undefined` is not
serializable on its own (`JSON.stringify` returns `undefined`, modelled as
`none`), is skipped as an object field, and becomes `null` inside an
array. -/
def serVal : Value → Option String
  | .vnull => some "null"
  | .vundefined => none
  | .vbool b => some (if b then "true" else "false")
  | .vnum n => some (intDecimal n)
  | .vstr s => some (jsonQuote s)
  | .vbig n => some (jsonQuote (intDecimal n))
  | .varr xs => some ("[" ++ commaJoin (serArr xs) ++ "]")
  | .vobj fs => some ("\x7b" ++ commaJoin (serObj fs) ++ "\x7d")

/-- Rendered elements of a JSON array (an unserializable element renders as
`null`). -/
def serArr : List Value → List String
  | [] => []
  | x :: xs => (serVal x).getD "null" :: serArr xs

/-- Rendered `"key":value` members of a JSON object; fields whose value is
unserializable are skipped. -/
def serObj : List (String × Value) → List String
  | [] => []
  | (k, v) :: fs =>
    match serVal v with
    | none => serObj fs
    | some s => (jsonQuote k ++ ":" ++ s) :: serObj fs

end

/-- `safeStringify(obj)` from src/unnamed/part_000:
`JSON.stringify(obj, (_, v) => typeof v === "bigint" ? v.toString() : v)`.
Total — it never throws; `none` models the `undefined` result that plain
`JSON.stringify` gives on an unserializable top-level value. -/
def safeStringify (v : Value) : Option String := serVal v

/-- The string the handlers actually embed in their envelopes (a top-level
tool result is always a serializable object/array, where this equals
`safeStringify`). -/
def stringifyD (v : Value) : String := (safeStringify v).getD "undefined"

/-! ## The response cache (NodeCache `_cache` in src/src/index.ts) -/

/-- One cache entry: the stored value and its absolute expiry time.  Times are
in seconds; `_cache.set(key, v, ttl)` stores expiry `now + ttl`. -/
structure CEntry where
  value : Value
  expiresAt : Nat

/-- The `_cache` map, keyed by string.  The most recent binding for a key
shadows older ones, matching overwrite-on-set. -/
abbrev Cache := List (String × CEntry)

/-- NodeCache lazy expiry read: a present entry is returned unless its expiry
time lies strictly in the past (`data.t < Date.now()`), in which case the
access is a miss. -/
def cacheGet (c : Cache) (now : Nat) (k : String) : Option Value :=
  match List.lookup k c with
  | some e => if e.expiresAt < now then none else some e.value
  | none => none

/-- `_cache.set(key, v, ttl)`: binds `key` to `v` with expiry `now + ttl`. -/
def cacheSet (c : Cache) (now : Nat) (k : String) (v : Value) (ttl : Nat) : Cache :=
  (k, ⟨v, now + ttl⟩) :: c

/-- The reference-data TTL: `const cacheTTL = 60 * 60 * 24` (one day, in
seconds). -/
def cacheTTL : Nat := 60 * 60 * 24

/-- The inline caching pattern shared by the `chains`, `tokens-one-chain` and
`token` tool handlers:

```
let v = _cache.get(key);
if (!v) { v = await compute(); _cache.set(key, v, ttl); }
```

inside a `try`.  Returns the produced value (or the thrown error), the cache
after the call, and how many times `compute` (the remote call) ran.  Note the
truthiness check: a cached falsy value would also count as a miss. -/
def getOrCompute (c : Cache) (now : Nat) (key : String) (ttl : Nat)
    (compute : Except String Value) : Except String Value × Cache × Nat :=
  let hit := match cacheGet c now key with
    | some v => if truthy v then some v else none
    | none => none
  match hit with
  | some v => (Except.ok v, c, 0)
  | none =>
    match compute with
    | .ok v => (.ok v, cacheSet c now key v ttl, 1)
    | .error m => (.error m, c, 1)

/-! ## Tool result envelopes -/

/-- A tool handler's result object: either `{ content: [{type:"text", text}] }`
or `{ structuredContent: {...} }`.  Whether the envelope reports success or
failure is carried by the text / the fields, exactly as in the source. -/
inductive Envelope where
  | content (text : String)
  | structured (fields : List (String × Value))

/-! ## Cache keys of the cached tool handlers -/

/-- Key of the `chains` handler: `"chains"`. -/
def chainsKey : String := "chains"

/-- Key of the `tokens-one-chain` handler: `` `tokens-${chain || "all"}` ``
(JavaScript `||`: an absent or empty chain argument falls back to `"all"`). -/
def tokensOneChainKey (chain : Option String) : String :=
  "tokens-" ++ (match chain with
    | some s => if s = "" then "all" else s
    | none => "all")

/-- Key of the `token` handler: `` `token-${chain}-${token}` ``. -/
def tokenKey (chain token : String) : String :=
  "token-" ++ chain ++ "-" ++ token

/-! ## Cached tool handlers -/

/-- The `chains` tool handler (src/src/index.ts:1150-1180): cached lookup of
`getChains()` under key `"chains"` with TTL `cacheTTL`; a throw anywhere in
the `try` is caught and becomes a text envelope with the error message. -/
def chainsHandler (c : Cache) (now : Nat) (uChains : Except String Value) :
    Envelope × Cache × Nat :=
  match getOrCompute c now chainsKey cacheTTL uChains with
  | (.ok v, c2, n) => (.content (stringifyD v), c2, n)
  | (.error m, c2, n) => (.content ("Failed to get chains: " ++ m), c2, n)

/-- The `token` tool handler (src/src/index.ts:1254-1287): cached lookup of
`getToken(chain, token)` under key `` `token-${chain}-${token}` `` with TTL
`cacheTTL`. -/
def tokenHandler (c : Cache) (now : Nat) (chain token : String)
    (uToken : Except String Value) : Envelope × Cache × Nat :=
  match getOrCompute c now (tokenKey chain token) cacheTTL uToken with
  | (.ok v, c2, n) => (.content (stringifyD v), c2, n)
  | (.error m, c2, n) => (.content ("Failed to get token info: " ++ m), c2, n)

/-- The JavaScript property index used by
`tokens.tokens[chain as any]` when `chain : string | undefined`: an absent
chain indexes with the string `"undefined"`. -/
def tokensIndexKey (chain : Option String) : String :=
  match chain with
  | some s => s
  | none => "undefined"

/-- The message of the TypeError thrown by `undefined.slice(0, 25)` when the
per-chain index misses (quotes around the method name elided). -/
def undefinedSliceMsg : String :=
  "Cannot read properties of undefined (reading slice)"

/-- The `tokens-one-chain` tool handler (src/src/index.ts:1183-1216).  The
upstream `getTokens` result is its `tokens` map: chain key to token list.
On a cache miss the handler takes the first 25 tokens of
`tokens.tokens[chain]` and caches them for `60 * 5` seconds; if that map has
no entry for the (possibly undefined) chain, the `.slice` call throws inside
the `try` and the catch produces the error envelope. -/
def tokensOneChainHandler (c : Cache) (now : Nat) (chain : Option String)
    (uTokens : Except String (List (String × List Value))) :
    Envelope × Cache × Nat :=
  let key := tokensOneChainKey chain
  let hit := match cacheGet c now key with
    | some v => if truthy v then some v else none
    | none => none
  match hit with
  | some v => (.content (stringifyD v), c, 0)
  | none =>
    match uTokens with
    | .error m => (.content ("Failed to get tokens: " ++ m), c, 1)
    | .ok m =>
      match List.lookup (tokensIndexKey chain) m with
      | some l =>
        let less := Value.varr (l.take 25)
        (.content (stringifyD less), cacheSet c now key less (60 * 5), 1)
      | none =>
        (.content ("Failed to get tokens: " ++ undefinedSliceMsg), c, 1)

/-- The `tokens-multiple-chains` tool handler (src/src/index.ts:1219-1251):
uncached; truncates every chain's token list to its first 25 entries before
serializing. -/
def tokensMultipleChainsHandler (c : Cache)
    (uTokens : Except String (List (String × List Value))) :
    Envelope × Cache × Nat :=
  match uTokens with
  | .ok m =>
    let m2 := m.map (fun p => (p.1, p.2.take 25))
    (.content (stringifyD (Value.vobj
        [("tokens", Value.vobj (m2.map (fun p => (p.1, Value.varr p.2))))])),
      c, 1)
  | .error msg => (.content ("Failed to get tokens: " ++ msg), c, 1)

/-! ## Uncached live-state tool handlers -/

/-- The `status` tool handler (src/src/index.ts:1608-1638): calls
`getStatus` directly on every invocation; the cache is in scope but never
consulted or written.  The `Nat` counts the remote calls the invocation
made. -/
def statusHandler (c : Cache) (uStatus : Except String Value) :
    Envelope × Cache × Nat :=
  match uStatus with
  | .ok v => (.content (stringifyD v), c, 1)
  | .error m => (.content ("Failed to get status: " ++ m), c, 1)

/-- The `fetch` + `if (!res.ok) throw` prelude of the `gas-price` handler
(src/src/index.ts:1649-1657): a non-success HTTP status becomes a thrown
`Error` whose message starts with `HTTP`; otherwise the response JSON is
produced.  A network-level rejection is an `.error` in `httpOk`'s place,
folded in by taking the whole argument as `Except`. -/
def gasPriceFetch (fetchRes : Except String (Bool × Nat × String × Value)) :
    Except String Value :=
  match fetchRes with
  | .error m => .error m
  | .ok (ok, status, bodyText, json) =>
    if !ok then .error ("HTTP " ++ natDecimal status ++ ": " ++ bodyText)
    else .ok json

/-- The `gas-price` tool handler (src/src/index.ts:1641-1671): a fresh
`fetch` of `https://li.quest/v1/gas/prices/{chainId}` on every invocation,
never touching the cache. -/
def gasPriceHandler (c : Cache) (fetchRes : Except String (Bool × Nat × String × Value)) :
    Envelope × Cache × Nat :=
  match gasPriceFetch fetchRes with
  | .ok v => (.content (stringifyD v), c, 1)
  | .error m => (.content ("Failed to get gas price: " ++ m), c, 1)

/-- The `try` body of the `token-balance` handler (src/src/index.ts:1438-1446):
`getToken`, then `getTokenBalance`, then
`JSON.parse(safeStringify(balance))` (the re-parse step `uParse`, which can
itself throw — e.g. on an unserializable balance).  Any `.error` is the
exception the `catch` receives. -/
def tokenBalanceBody (uToken uBalance : Except String Value)
    (uParse : Value → Except String Value) : Except String Value := do
  let _tokenObj ← uToken
  let bal ← uBalance
  uParse bal

/-- The `token-balance` tool handler (src/src/index.ts:1412-1455): uncached;
success yields `structuredContent: { balance }`, any throw is caught and
yields `structuredContent: { error: ... }`.  The `Nat` counts remote calls
(`getToken`, and `getTokenBalance` when reached). -/
def tokenBalanceHandler (c : Cache) (uToken uBalance : Except String Value)
    (uParse : Value → Except String Value) : Envelope × Cache × Nat :=
  let calls := match uToken with
    | .ok _ => 2
    | .error _ => 1
  match tokenBalanceBody uToken uBalance uParse with
  | .ok v => (.structured [("balance", v)], c, calls)
  | .error m =>
    (.structured [("error", .vstr ("Failed to get token balance: " ++ m))], c, calls)

/-- The `token-allowance` tool handler (src/src/index.ts:1504-1532): uncached;
`getToken` then `getTokenAllowance`, text envelope either way. -/
def tokenAllowanceHandler (c : Cache) (uToken uAllowance : Except String Value) :
    Envelope × Cache × Nat :=
  let calls := match uToken with
    | .ok _ => 2
    | .error _ => 1
  match (do let _t ← uToken; uAllowance : Except String Value) with
  | .ok v => (.content (stringifyD v), c, calls)
  | .error m => (.content ("Failed to get token allowance: " ++ m), c, calls)

/-! ## The session registry (`transports`) and the request router -/

/-- The `transports` object of src/src/index.ts:933, mapping a session id to
its `StreamableHTTPServerTransport`.  Transports are identified by a number;
the most recent binding for an id shadows older ones (property
assignment overwrites). -/
abbrev Registry := List (String × Nat)

/-- `transports[sessionId]` read. -/
def regLookup (reg : Registry) (id : String) : Option Nat :=
  List.lookup id reg

/-- `transports[sessionId] = transport`, as performed by the
`onsessioninitialized` callback. -/
def regInsert (id : String) (t : Nat) (reg : Registry) : Registry :=
  (id, t) :: reg

/-- `delete transports[transport.sessionId]`, as performed by
`transport.onclose`. -/
def regRemove (id : String) (reg : Registry) : Registry :=
  reg.filter (fun p => !(p.1 == id))

/-- Registry operations that can happen after a point in time: a session
initialization registers an id, a transport closure removes one. -/
inductive RegOp where
  | register (id : String) (t : Nat)
  | close (id : String)

/-- Applying one registry operation. -/
def applyOp (reg : Registry) : RegOp → Registry
  | .register id t => regInsert id t reg
  | .close id => regRemove id reg

/-- Applying a sequence of registry operations, oldest first. -/
def applyOps (reg : Registry) (ops : List RegOp) : Registry :=
  ops.foldl applyOp reg

/-- The structured JSON-RPC error body of the rejected-POST branch
(src/src/index.ts:1707-1714). -/
structure JsonRpcError where
  jsonrpc : String
  code : Int
  message : String
  id : Option Nat
deriving DecidableEq

/-- `{ jsonrpc: "2.0", error: { code: -32000, message: "Bad Request: No valid
session ID provided" }, id: null }`. -/
def badRequestError : JsonRpcError :=
  { jsonrpc := "2.0"
    code := -32000
    message := "Bad Request: No valid session ID provided"
    id := none }

/-- What the server sends back for one inbound request: either the request was
handed to a transport's `handleRequest`, or it was answered directly with a
JSON body (`res.status(...).json(...)`) or a plain text body
(`res.status(...).send(...)`). -/
inductive HttpResponse where
  | handledBy (t : Nat)
  | jsonBody (status : Nat) (body : JsonRpcError)
  | textBody (status : Nat) (body : String)
deriving DecidableEq

/-- JavaScript truthiness of the `mcp-session-id` header value: absent or
empty is falsy. -/
def sidTruthy : Option String → Bool
  | some s => s != ""
  | none => false

/-- `sessionId && transports[sessionId]`: the transport of an existing
session, when the header is truthy and registered. -/
def exTransport (reg : Registry) (sessionId : Option String) : Option Nat :=
  match sessionId with
  | some s => if s = "" then none else regLookup reg s
  | none => none

/-- The POST `/mcp` router (src/src/index.ts:961-1720).  `isInit` is
`isInitializeRequest(req.body)`; `freshId` is the UUID the
`sessionIdGenerator` would produce and `freshT` the transport constructed in
the new-session branch (registered by `onsessioninitialized` before the
request is handled).  Returns the response and the registry afterwards. -/
def routePost (reg : Registry) (sessionId : Option String) (isInit : Bool)
    (freshId : String) (freshT : Nat) : HttpResponse × Registry :=
  match exTransport reg sessionId with
  | some t => (.handledBy t, reg)
  | none =>
    if !sidTruthy sessionId && isInit then
      (.handledBy freshT, regInsert freshId freshT reg)
    else
      (.jsonBody 400 badRequestError, reg)

/-- `handleSessionRequest` (src/src/index.ts:1723-1732), shared by GET and
DELETE `/mcp`: an absent or unregistered session id is answered with
`res.status(400).send('Invalid or missing session ID')`; otherwise the
request goes to the session's transport.  The registry is never changed. -/
def handleSessionRequest (reg : Registry) (sessionId : Option String) :
    HttpResponse × Registry :=
  match exTransport reg sessionId with
  | none => (.textBody 400 "Invalid or missing session ID", reg)
  | some t => (.handledBy t, reg)

/-! ## Specification-side notions used by the theorems -/

/-- `a` occurs contiguously inside `b`. -/
def strInfix (a b : String) : Prop := a.data <:+: b.data

/-- A bigint `n` occurs somewhere inside a value (as the value itself, an
array element, or an object field, at any depth). -/
inductive OccursBig : Int → Value → Prop where
  | big (n : Int) : OccursBig n (.vbig n)
  | arr {n : Int} {x : Value} {xs : List Value} :
      x ∈ xs → OccursBig n x → OccursBig n (.varr xs)
  | obj {n : Int} {k : String} {x : Value} {fs : List (String × Value)} :
      (k, x) ∈ fs → OccursBig n x → OccursBig n (.vobj fs)

/-! ## Helper lemmas -/

theorem strData_append (a b : String) : (a ++ b).data = a.data ++ b.data := rfl

theorem strInfix_refl (a : String) : strInfix a a :=
  ⟨[], [], by simp⟩

theorem strInfix_appendL {a b : String} (c : String) (h : strInfix a b) :
    strInfix a (b ++ c) := by
  obtain ⟨s, t, hst⟩ := h
  exact ⟨s, t ++ c.data, by rw [strData_append, ← hst]; simp⟩

theorem strInfix_appendR {a b : String} (c : String) (h : strInfix a b) :
    strInfix a (c ++ b) := by
  obtain ⟨s, t, hst⟩ := h
  exact ⟨c.data ++ s, t, by rw [strData_append, ← hst]; simp⟩

theorem strInfix_trans {a b c : String} (h1 : strInfix a b) (h2 : strInfix b c) :
    strInfix a c :=
  List.IsInfix.trans h1 h2

theorem strInfix_commaJoin {s : String} {l : List String} (h : s ∈ l) :
    strInfix s (commaJoin l) := by
  induction l with
  | nil => cases h
  | cons a rest ih =>
    rcases List.mem_cons.mp h with rfl | hmem
    · match rest with
      | [] => exact strInfix_refl s
      | r :: rs =>
        show strInfix s (s ++ "," ++ commaJoin (r :: rs))
        exact strInfix_appendL _ (strInfix_appendL _ (strInfix_refl s))
    · match rest with
      | [] => cases hmem
      | r :: rs =>
        show strInfix s (a ++ "," ++ commaJoin (r :: rs))
        exact strInfix_appendR _ (ih hmem)

theorem digitVal_digitChar : ∀ d < 10, digitVal (Nat.digitChar d) = d := by decide

theorem escChar_digitChar : ∀ d < 10,
    escChar (Nat.digitChar d) = String.singleton (Nat.digitChar d) := by decide

theorem digitChar_ne_minus : ∀ d < 10, Nat.digitChar d ≠ '-' := by decide

theorem natDigits_ne_nil (n : Nat) : natDigits n ≠ [] := by
  rw [natDigits]
  split <;> simp

theorem natDigits_mem (n : Nat) : ∀ c ∈ natDigits n, ∃ d, d < 10 ∧ c = Nat.digitChar d := by
  induction n using Nat.strong_induction_on with
  | _ n ih =>
    rw [natDigits]
    split
    · intro c hc
      rw [List.mem_singleton] at hc
      exact ⟨n, by omega, hc⟩
    · intro c hc
      rcases List.mem_append.mp hc with h1 | h2
      · exact ih (n / 10) (Nat.div_lt_self (by omega) (by omega)) c h1
      · rw [List.mem_singleton] at h2
        exact ⟨n % 10, Nat.mod_lt n (by omega), h2⟩

theorem decDigits_append_digit (l : List Char) (c : Char) :
    decDigits (l ++ [c]) = 10 * decDigits l + digitVal c := by
  simp [decDigits, List.foldl_append]

theorem decDigits_natDigits (n : Nat) : decDigits (natDigits n) = n := by
  induction n using Nat.strong_induction_on with
  | _ n ih =>
    rw [natDigits]
    split
    · simp only [decDigits, List.foldl]
      rw [digitVal_digitChar n (by omega)]
      omega
    · rw [decDigits_append_digit, ih (n / 10) (Nat.div_lt_self (by omega) (by omega)),
        digitVal_digitChar (n % 10) (Nat.mod_lt n (by omega))]
      omega

theorem escList_of_singleton (l : List Char)
    (h : ∀ c ∈ l, escChar c = String.singleton c) : escList l = ⟨l⟩ := by
  induction l with
  | nil => rfl
  | cons c tl ih =>
    show escChar c ++ escList tl = String.mk (c :: tl)
    rw [h c (List.mem_cons_self c tl), ih (fun x hx => h x (List.mem_cons_of_mem c hx))]
    rfl

theorem escString_intDecimal (n : Int) : escString (intDecimal n) = intDecimal n := by
  unfold intDecimal
  split
  · show escList ("-" ++ natDecimal n.natAbs).data = _
    rw [strData_append]
    apply escList_of_singleton
    intro c hc
    rcases List.mem_append.mp hc with h1 | h2
    · rw [show ("-" : String).data = ['-'] from rfl, List.mem_singleton] at h1
      subst h1; rfl
    · obtain ⟨d, hd, rfl⟩ := natDigits_mem _ c h2
      exact escChar_digitChar d hd
  · apply escList_of_singleton
    intro c hc
    obtain ⟨d, hd, rfl⟩ := natDigits_mem _ c hc
    exact escChar_digitChar d hd

theorem jsonQuote_intDecimal (n : Int) :
    jsonQuote (intDecimal n) = "\"" ++ intDecimal n ++ "\"" := by
  rw [jsonQuote, escString_intDecimal]

theorem decParseInt_intDecimal (n : Int) : decParseInt (intDecimal n) = n := by
  unfold decParseInt intDecimal
  by_cases h : n < 0
  · rw [if_pos h]
    have hd : ("-" ++ natDecimal n.natAbs).data = '-' :: natDigits n.natAbs := by
      rw [strData_append]; rfl
    rw [hd]
    show (if ('-' : Char) = '-' then - (decDigits (natDigits n.natAbs) : Int)
      else (decDigits ('-' :: natDigits n.natAbs) : Int)) = n
    rw [if_pos rfl, decDigits_natDigits]
    omega
  · rw [if_neg h]
    have hne := natDigits_ne_nil n.toNat
    rcases hl : natDigits n.toNat with _ | ⟨c, rest⟩
    · exact absurd hl hne
    · have hc : c ≠ '-' := by
        obtain ⟨d, hd, rfl⟩ := natDigits_mem n.toNat c (by rw [hl]; exact List.mem_cons_self _ _)
        exact digitChar_ne_minus d hd
      rw [show (natDecimal n.toNat).data = natDigits n.toNat from rfl, hl]
      show (if c = '-' then - (decDigits rest : Int) else (decDigits (c :: rest) : Int)) = n
      rw [if_neg hc, ← hl, decDigits_natDigits]
      omega

theorem mem_serArr {x : Value} {xs : List Value} {s : String}
    (hmem : x ∈ xs) (hs : serVal x = some s) : s ∈ serArr xs := by
  induction xs with
  | nil => cases hmem
  | cons y ys ih =>
    rcases List.mem_cons.mp hmem with rfl | h
    · simp only [serArr, hs, Option.getD_some]
      exact List.mem_cons_self _ _
    · simp only [serArr]
      exact List.mem_cons_of_mem _ (ih h)

theorem mem_serObj {k : String} {x : Value} {fs : List (String × Value)} {s : String}
    (hmem : (k, x) ∈ fs) (hs : serVal x = some s) :
    (jsonQuote k ++ ":" ++ s) ∈ serObj fs := by
  induction fs with
  | nil => cases hmem
  | cons p ps ih =>
    rcases List.mem_cons.mp hmem with heq | h
    · cases heq
      simp only [serObj, hs]
      exact List.mem_cons_self _ _
    · obtain ⟨k2, v2⟩ := p
      simp only [serObj]
      rcases hv : serVal v2 with _ | s2
      · exact ih h
      · exact List.mem_cons_of_mem _ (ih h)

/-! ## Claim theorems -/

/-- C8: For every JSON-serializable value, including values containing bigint
fields of 64 bits or more, `safeStringify` produces a JSON string in which
every bigint is rendered as its exact decimal representation, without
throwing and without precision loss: wherever a bigint `n` occurs in `v`,
serialization succeeds and the output contains the decimal string of `n`
(as a quoted JSON string), and that decimal string reads back to exactly
`n`. -/
theorem safeStringify_bigint_exact (n : Int) (v : Value) (h : OccursBig n v) :
    ∃ s, safeStringify v = some s ∧
      strInfix ("\"" ++ intDecimal n ++ "\"") s ∧
      decParseInt (intDecimal n) = n := by
  induction h with
  | big =>
    refine ⟨jsonQuote (intDecimal n), ?_, ?_, decParseInt_intDecimal n⟩
    · simp only [safeStringify, serVal]
    · rw [jsonQuote_intDecimal]
      exact strInfix_refl _
  | arr hmem hocc ih =>
    rename_i x xs
    obtain ⟨s, hs, hinf, hparse⟩ := ih
    refine ⟨"[" ++ commaJoin (serArr xs) ++ "]", ?_, ?_, hparse⟩
    · simp only [safeStringify, serVal]
    · have h1 : strInfix s (commaJoin (serArr xs)) :=
        strInfix_commaJoin (mem_serArr hmem hs)
      exact strInfix_appendL _ (strInfix_appendR _ (strInfix_trans hinf h1))
  | obj hmem hocc ih =>
    rename_i k x fs
    obtain ⟨s, hs, hinf, hparse⟩ := ih
    refine ⟨"\x7b" ++ commaJoin (serObj fs) ++ "\x7d", ?_, ?_, hparse⟩
    · simp only [safeStringify, serVal]
    · have h0 : strInfix s (jsonQuote k ++ ":" ++ s) :=
        strInfix_appendR _ (strInfix_refl s)
      have h1 := strInfix_trans (strInfix_trans hinf h0)
        (strInfix_commaJoin (mem_serObj hmem hs))
      exact strInfix_appendL _ (strInfix_appendR _ h1)

/-- Witness for C8 at a concrete 2^64 bigint balance field. -/
theorem safeStringify_bigint_exact_witness :
    ∃ s, safeStringify (.vobj [("amount", .vbig 18446744073709551616)]) = some s ∧
      strInfix ("\"" ++ intDecimal 18446744073709551616 ++ "\"") s ∧
      decParseInt (intDecimal 18446744073709551616) = 18446744073709551616 :=
  safeStringify_bigint_exact 18446744073709551616 _
    (OccursBig.obj (List.mem_singleton.mpr rfl) (OccursBig.big _))

theorem regLookup_eq_none_iff (reg : Registry) (id : String) :
    regLookup reg id = none ↔ ∀ p ∈ reg, p.1 ≠ id := by
  induction reg with
  | nil => simp [regLookup]
  | cons p tl ih =>
    obtain ⟨k, v⟩ := p
    by_cases h : id = k
    · subst h
      simp [regLookup, List.lookup]
    · simp only [regLookup] at ih ⊢
      rw [List.lookup_cons, beq_false_of_ne h]
      simp only [List.mem_cons, forall_eq_or_imp]
      constructor
      · intro hl
        exact ⟨fun hk => h hk.symm, (ih.mp hl)⟩
      · intro ⟨_, htl⟩
        exact ih.mpr htl

theorem regLookup_regInsert_self (id : String) (t : Nat) (reg : Registry) :
    regLookup (regInsert id t reg) id = some t := by
  simp [regLookup, regInsert, List.lookup]

theorem regLookup_regInsert_other (id id2 : String) (t : Nat) (reg : Registry)
    (h : id2 ≠ id) : regLookup (regInsert id2 t reg) id = regLookup reg id := by
  simp only [regLookup, regInsert]
  rw [List.lookup_cons, beq_false_of_ne (fun hk => h hk.symm)]

theorem mem_regRemove {p : String × Nat} {id : String} {reg : Registry}
    (h : p ∈ regRemove id reg) : p ∈ reg ∧ p.1 ≠ id := by
  have := List.mem_filter.mp h
  refine ⟨this.1, ?_⟩
  simpa using this.2

theorem regLookup_regRemove_self (id : String) (reg : Registry) :
    regLookup (regRemove id reg) id = none := by
  rw [regLookup_eq_none_iff]
  intro p hp
  exact (mem_regRemove hp).2

theorem regRemove_idem (id : String) (reg : Registry) :
    regRemove id (regRemove id reg) = regRemove id reg := by
  apply List.filter_eq_self.mpr
  intro p hp
  simpa using (mem_regRemove hp).2

theorem regRemove_of_not_mem (id : String) (reg : Registry)
    (h : regLookup reg id = none) : regRemove id reg = reg := by
  apply List.filter_eq_self.mpr
  intro p hp
  simpa using (regLookup_eq_none_iff reg id).mp h p hp

theorem regLookup_regRemove_other (id id2 : String) (reg : Registry)
    (h : regLookup reg id = none) : regLookup (regRemove id2 reg) id = none := by
  rw [regLookup_eq_none_iff]
  intro p hp
  exact (regLookup_eq_none_iff reg id).mp h p (mem_regRemove hp).1

theorem regLookup_applyOps_none (id : String) (ops : List RegOp) :
    ∀ reg : Registry, regLookup reg id = none →
    (∀ t, RegOp.register id t ∉ ops) →
    regLookup (applyOps reg ops) id = none := by
  induction ops with
  | nil => intro reg h _; exact h
  | cons op tl ih =>
    intro reg h hops
    show regLookup (applyOps (applyOp reg op) tl) id = none
    match op with
    | .register id2 t =>
      have hne : id2 ≠ id := by
        intro heq
        subst heq
        exact hops t (List.mem_cons_self _ _)
      refine ih _ ?_ (fun t2 hm => hops t2 (List.mem_cons_of_mem _ hm))
      rw [show applyOp reg (RegOp.register id2 t) = regInsert id2 t reg from rfl,
        regLookup_regInsert_other _ _ _ _ hne]
      exact h
    | .close id2 =>
      refine ih _ ?_ (fun t2 hm => hops t2 (List.mem_cons_of_mem _ hm))
      exact regLookup_regRemove_other _ _ _ h

/-- C1: For every inbound POST to `/mcp`: a present session header with a live
registered session routes the request to that session's transport; an absent
header with an initialization body creates a fresh session and routes to its
new transport; in every other case (header absent and not an initialization
request, or header present but not registered) the request is rejected with
the structured bad-request error and the registry is unchanged (no session
created). -/
theorem post_routing_correct (reg : Registry) (sessionId : Option String)
    (isInit : Bool) (freshId : String) (freshT : Nat) :
    (∀ s t, sessionId = some s → s ≠ "" → regLookup reg s = some t →
      routePost reg sessionId isInit freshId freshT = (.handledBy t, reg)) ∧
    (sessionId = none → isInit = true →
      routePost reg sessionId isInit freshId freshT =
        (.handledBy freshT, regInsert freshId freshT reg)) ∧
    (sessionId = none → isInit = false →
      routePost reg sessionId isInit freshId freshT =
        (.jsonBody 400 badRequestError, reg)) ∧
    (∀ s, sessionId = some s → s ≠ "" → regLookup reg s = none →
      routePost reg sessionId isInit freshId freshT =
        (.jsonBody 400 badRequestError, reg)) := by
  refine ⟨?_, ?_, ?_, ?_⟩
  · rintro s t rfl hs hl
    simp [routePost, exTransport, hs, hl]
  · rintro rfl rfl
    simp [routePost, exTransport, sidTruthy]
  · rintro rfl rfl
    simp [routePost, exTransport, sidTruthy]
  · rintro s rfl hs hl
    simp [routePost, exTransport, sidTruthy, hs, hl]

/-- Witness for C1: one concrete request per routing case. -/
theorem post_routing_correct_witness :
    routePost [("S1", 7)] (some "S1") false "N" 9 = (.handledBy 7, [("S1", 7)]) ∧
    routePost [] none true "N" 9 = (.handledBy 9, regInsert "N" 9 []) ∧
    routePost [] none false "N" 9 = (.jsonBody 400 badRequestError, []) ∧
    routePost [("S1", 7)] (some "S2") true "N" 9 =
      (.jsonBody 400 badRequestError, [("S1", 7)]) :=
  ⟨(post_routing_correct [("S1", 7)] (some "S1") false "N" 9).1 "S1" 7 rfl
      (by decide) (by decide),
    (post_routing_correct [] none true "N" 9).2.1 rfl rfl,
    (post_routing_correct [] none false "N" 9).2.2.1 rfl rfl,
    (post_routing_correct [("S1", 7)] (some "S2") true "N" 9).2.2.2 "S2" rfl
      (by decide) (by decide)⟩

/-- C2: A freshly registered session id (what `onsessioninitialized` does on a
successful create) is immediately found by lookup; after a remove (the
transport's close notification) lookup fails and keeps failing under any later
operations that never re-register that id; removing twice, or removing an id
that is not registered, is a no-op that leaves the registry unchanged. -/
theorem registry_lifecycle :
    (∀ (id : String) (t : Nat) (reg : Registry),
      regLookup (regInsert id t reg) id = some t) ∧
    (∀ (id : String) (reg : Registry),
      regLookup (regRemove id reg) id = none) ∧
    (∀ (id : String) (reg : Registry) (ops : List RegOp),
      (∀ t, RegOp.register id t ∉ ops) →
      regLookup (applyOps (regRemove id reg) ops) id = none) ∧
    (∀ (id : String) (reg : Registry),
      regRemove id (regRemove id reg) = regRemove id reg) ∧
    (∀ (id : String) (reg : Registry),
      regLookup reg id = none → regRemove id reg = reg) := by
  refine ⟨regLookup_regInsert_self, regLookup_regRemove_self, ?_, regRemove_idem,
    regRemove_of_not_mem⟩
  intro id reg ops hops
  exact regLookup_applyOps_none id ops _ (regLookup_regRemove_self id reg) hops

/-- Witness for C2 at a concrete id, registry and operation sequence. -/
theorem registry_lifecycle_witness :
    regLookup (regInsert "A" 1 []) "A" = some 1 ∧
    regLookup (regRemove "A" [("A", 1)]) "A" = none ∧
    regLookup (applyOps (regRemove "A" [("A", 1)])
      [RegOp.register "B" 2, RegOp.close "B"]) "A" = none ∧
    regRemove "A" (regRemove "A" [("A", 1)]) = regRemove "A" [("A", 1)] ∧
    regRemove "A" [("B", 2)] = [("B", 2)] :=
  ⟨registry_lifecycle.1 "A" 1 [],
    registry_lifecycle.2.1 "A" [("A", 1)],
    registry_lifecycle.2.2.1 "A" [("A", 1)] [RegOp.register "B" 2, RegOp.close "B"]
      (by intro t h; rcases List.mem_cons.mp h with h1 | h1
          · exact RegOp.noConfusion h1 (fun he _ => by exact absurd he (by decide))
          · rcases List.mem_cons.mp h1 with h2 | h2
            · exact RegOp.noConfusion h2
            · cases h2),
    registry_lifecycle.2.2.2.1 "A" [("A", 1)],
    registry_lifecycle.2.2.2.2 "A" [("B", 2)] (by decide)⟩

/-- C4 counterexample: a GET/DELETE with no session header is rejected, but
with a plain-text `400` body (`res.status(400).send(...)`), not with the
structured JSON-RPC object (numeric code, message, null id) that a rejected
POST receives — the two rejection shapes differ. -/
theorem session_request_reject_shape_cex :
    (handleSessionRequest [] none).1 =
      HttpResponse.textBody 400 "Invalid or missing session ID" ∧
    (routePost [] none false "N" 0).1 = HttpResponse.jsonBody 400 badRequestError ∧
    HttpResponse.textBody 400 "Invalid or missing session ID" ≠
      HttpResponse.jsonBody 400 badRequestError :=
  ⟨rfl, rfl, by decide⟩

/-- C4 (amended): For every GET or DELETE request whose session-id header is
absent or names an unregistered session, the request is rejected with HTTP
400 — though with the plain-text body `Invalid or missing session ID`, not
the structured JSON-RPC error object of a rejected POST — and the registry is
unchanged, so no session is created as a side effect. -/
theorem session_request_reject (reg : Registry) (sid : Option String)
    (h : sid = none ∨ ∃ s, sid = some s ∧ regLookup reg s = none) :
    handleSessionRequest reg sid =
      (.textBody 400 "Invalid or missing session ID", reg) := by
  have hex : exTransport reg sid = none := by
    rcases h with rfl | ⟨s, rfl, hl⟩
    · rfl
    · simp only [exTransport]
      by_cases hs : s = ""
      · rw [if_pos hs]
      · rw [if_neg hs, hl]
  simp [handleSessionRequest, hex]

/-- Witness for C4's amended theorem at a concrete unregistered id. -/
theorem session_request_reject_witness :
    handleSessionRequest [("S1", 3)] (some "S2") =
      (.textBody 400 "Invalid or missing session ID", [("S1", 3)]) :=
  session_request_reject [("S1", 3)] (some "S2")
    (Or.inr ⟨"S2", rfl, by decide⟩)

/-- C7 counterexample: cache key construction is not injective within the
`token` operation — the argument pairs (chain `a-b`, token `c`) and (chain
`a`, token `b-c`) are different but produce the same key `token-a-b-c`. -/
theorem cache_key_collision_cex :
    tokenKey "a-b" "c" = tokenKey "a" "b-c" ∧
    (("a-b", "c") : String × String) ≠ ("a", "b-c") :=
  ⟨by decide, by decide⟩

/-- C7 (amended): keys of different cached operations never collide — the
`chains` key, the `tokens-one-chain` keys and the `token` keys are pairwise
distinct whatever the arguments — but within a single operation distinct
argument tuples can produce the same key (hyphen-containing chain names in
`token`, or a literal `all`/empty chain in `tokens-one-chain`), as the
counterexample shows. -/
theorem cache_key_cross_operation (chain token : String) (c2 : Option String) :
    chainsKey ≠ tokenKey chain token ∧
    chainsKey ≠ tokensOneChainKey c2 ∧
    tokensOneChainKey c2 ≠ tokenKey chain token := by
  have hck : ∀ x : String, chainsKey ≠ "tokens-" ++ x := by
    intro x h
    have h2 := congrArg String.data h
    rw [show chainsKey.data = ['c', 'h', 'a', 'i', 'n', 's'] from rfl, strData_append,
      show ("tokens-" : String).data = ['t', 'o', 'k', 'e', 'n', 's', '-'] from rfl] at h2
    simp only [List.cons_append] at h2
    injection h2 with h1 _
    exact absurd h1 (by decide)
  have hct : chainsKey ≠ tokenKey chain token := by
    intro h
    have h2 := congrArg String.data h
    rw [show tokenKey chain token = "token-" ++ chain ++ "-" ++ token from rfl,
      strData_append, strData_append, strData_append,
      show chainsKey.data = ['c', 'h', 'a', 'i', 'n', 's'] from rfl,
      show ("token-" : String).data = ['t', 'o', 'k', 'e', 'n', '-'] from rfl] at h2
    simp only [List.cons_append] at h2
    injection h2 with h1 _
    exact absurd h1 (by decide)
  have htt : ∀ x : String, "tokens-" ++ x ≠ tokenKey chain token := by
    intro x h
    have h2 := congrArg String.data h
    rw [show tokenKey chain token = "token-" ++ chain ++ "-" ++ token from rfl,
      strData_append, strData_append, strData_append, strData_append,
      show ("tokens-" : String).data = ['t', 'o', 'k', 'e', 'n', 's', '-'] from rfl,
      show ("token-" : String).data = ['t', 'o', 'k', 'e', 'n', '-'] from rfl] at h2
    simp only [List.cons_append, List.append_assoc] at h2
    injection h2 with _ h2
    injection h2 with _ h2
    injection h2 with _ h2
    injection h2 with _ h2
    injection h2 with _ h2
    injection h2 with h6 _
    exact absurd h6 (by decide)
  have hform : ∃ x, tokensOneChainKey c2 = "tokens-" ++ x := by
    rcases c2 with _ | s
    · exact ⟨"all", rfl⟩
    · by_cases hs : s = ""
      · subst hs
        exact ⟨"all", rfl⟩
      · exact ⟨s, by simp [tokensOneChainKey, hs]⟩
  obtain ⟨x, hx⟩ := hform
  exact ⟨hct, by rw [hx]; exact hck x, by rw [hx]; exact htt x⟩

/-- Witness for C7's amended theorem at concrete arguments. -/
theorem cache_key_cross_operation_witness :
    chainsKey ≠ tokenKey "1" "0x0" ∧
    chainsKey ≠ tokensOneChainKey (some "1") ∧
    tokensOneChainKey (some "1") ≠ tokenKey "1" "0x0" :=
  cache_key_cross_operation "1" "0x0" (some "1")

/-- C3: For the get/compute/set pattern of the cached lookups (`chainsHandler`
and `tokenHandler` are `getOrCompute` at keys `chainsKey` and `tokenKey`):
starting from a cache with no entry for the key, a first call computes once
and stores the result with expiry `now + ttl`; a second call with the same
key within the ttl performs no further compute and returns the identical
value, so the two calls invoke compute exactly once in total; a call after
the ttl has elapsed treats the entry as a miss, invokes compute again, and
stores the fresh result with expiry `now + ttl` of that call. -/
theorem getOrCompute_ttl (c : Cache) (t0 t1 t2 : Nat) (key : String) (ttl : Nat)
    (v : Value)
    (hfresh : List.lookup key c = none)
    (hv : truthy v = true)
    (_h01 : t0 ≤ t1) (h1 : t1 ≤ t0 + ttl) (h2 : t0 + ttl < t2) :
    getOrCompute c t0 key ttl (.ok v) =
      (.ok v, cacheSet c t0 key v ttl, 1) ∧
    getOrCompute (cacheSet c t0 key v ttl) t1 key ttl (.ok v) =
      (.ok v, cacheSet c t0 key v ttl, 0) ∧
    (∀ w, truthy w = true →
      getOrCompute (cacheSet c t0 key v ttl) t2 key ttl (.ok w) =
        (.ok w, cacheSet (cacheSet c t0 key v ttl) t2 key w ttl, 1)) := by
  refine ⟨?_, ?_, ?_⟩
  · simp [getOrCompute, cacheGet, hfresh]
  · have hnl : ¬ (t0 + ttl < t1) := by omega
    simp [getOrCompute, cacheGet, cacheSet, List.lookup, hnl, hv]
  · intro w hw
    simp [getOrCompute, cacheGet, cacheSet, List.lookup, h2]

/-- Witness for C3 at a concrete key, ttl and times. -/
theorem getOrCompute_ttl_witness :
    getOrCompute [] 0 chainsKey 10 (.ok (.varr [])) =
      (.ok (.varr []), cacheSet [] 0 chainsKey (.varr []) 10, 1) ∧
    getOrCompute (cacheSet [] 0 chainsKey (.varr []) 10) 5 chainsKey 10
        (.ok (.varr [])) =
      (.ok (.varr []), cacheSet [] 0 chainsKey (.varr []) 10, 0) ∧
    getOrCompute (cacheSet [] 0 chainsKey (.varr []) 10) 11 chainsKey 10
        (.ok (.vobj [])) =
      (.ok (.vobj []),
        cacheSet (cacheSet [] 0 chainsKey (.varr []) 10) 11 chainsKey (.vobj []) 10,
        1) :=
  have h := getOrCompute_ttl [] 0 5 11 chainsKey 10 (.varr [])
    rfl rfl (by decide) (by decide) (by decide)
  ⟨h.1, h.2.1, h.2.2 (.vobj []) rfl⟩

/-- C6: The live-state handlers (`status`, `gas-price`, `token-balance`,
`token-allowance`) never read from or write to the cache: every invocation
leaves the cache exactly as it was, performs at least one fresh remote call
(exactly one for `status`/`gas-price`), and produces a result that does not
depend on the cache contents — so two consecutive invocations with identical
arguments each trigger a fresh remote call. -/
theorem live_state_uncached :
    (∀ (c : Cache) (u : Except String Value),
      (statusHandler c u).2.1 = c ∧ (statusHandler c u).2.2 = 1) ∧
    (∀ (c c2 : Cache) (u : Except String Value),
      (statusHandler c u).1 = (statusHandler c2 u).1) ∧
    (∀ (c : Cache) (f : Except String (Bool × Nat × String × Value)),
      (gasPriceHandler c f).2.1 = c ∧ (gasPriceHandler c f).2.2 = 1) ∧
    (∀ (c c2 : Cache) (f : Except String (Bool × Nat × String × Value)),
      (gasPriceHandler c f).1 = (gasPriceHandler c2 f).1) ∧
    (∀ (c : Cache) (ut ub : Except String Value) (up : Value → Except String Value),
      (tokenBalanceHandler c ut ub up).2.1 = c ∧
      1 ≤ (tokenBalanceHandler c ut ub up).2.2) ∧
    (∀ (c c2 : Cache) (ut ub : Except String Value) (up : Value → Except String Value),
      (tokenBalanceHandler c ut ub up).1 = (tokenBalanceHandler c2 ut ub up).1) ∧
    (∀ (c : Cache) (ut ua : Except String Value),
      (tokenAllowanceHandler c ut ua).2.1 = c ∧
      1 ≤ (tokenAllowanceHandler c ut ua).2.2) ∧
    (∀ (c c2 : Cache) (ut ua : Except String Value),
      (tokenAllowanceHandler c ut ua).1 = (tokenAllowanceHandler c2 ut ua).1) := by
  refine ⟨?_, ?_, ?_, ?_, ?_, ?_, ?_, ?_⟩
  · intro c u
    cases u <;> simp [statusHandler]
  · intro c c2 u
    cases u <;> simp [statusHandler]
  · intro c f
    rcases f with m | ⟨ok, status, bodyText, json⟩ <;>
      simp [gasPriceHandler, gasPriceFetch]
    cases ok <;> simp
  · intro c c2 f
    rcases f with m | ⟨ok, status, bodyText, json⟩ <;>
      simp [gasPriceHandler, gasPriceFetch]
    cases ok <;> simp
  · intro c ut ub up
    cases ut <;> cases ub <;>
      simp [tokenBalanceHandler, tokenBalanceBody, Except.bind] <;>
      split <;> simp
  · intro c c2 ut ub up
    cases ut <;> cases ub <;>
      simp [tokenBalanceHandler, tokenBalanceBody, Except.bind] <;>
      split <;> simp
  · intro c ut ua
    cases ut <;> cases ua
    · exact ⟨rfl, Nat.le_refl 1⟩
    · exact ⟨rfl, Nat.le_refl 1⟩
    · exact ⟨rfl, Nat.le_succ 1⟩
    · exact ⟨rfl, Nat.le_succ 1⟩
  · intro c c2 ut ua
    cases ut <;> cases ua <;> rfl

/-- C5: For every tool invocation and every behaviour of the remote service
(thrown exception, rejected promise, non-success HTTP status folded into the
`Except`, or a failing re-serialization step inside the handler), the tool
handler never raises: it always returns a well-formed envelope — a text
envelope that is either a serialized result or a `Failed to get tokens: `
message for `tokens-one-chain`, and a `structuredContent` object carrying
either the balance or an error message for `token-balance`. -/
theorem tool_handlers_never_raise :
    (∀ (c : Cache) (now : Nat) (chain : Option String)
        (uTokens : Except String (List (String × List Value))),
      (∃ v, (tokensOneChainHandler c now chain uTokens).1 =
        .content (stringifyD v)) ∨
      (∃ m, (tokensOneChainHandler c now chain uTokens).1 =
        .content ("Failed to get tokens: " ++ m))) ∧
    (∀ (c : Cache) (ut ub : Except String Value) (up : Value → Except String Value),
      (∃ v, (tokenBalanceHandler c ut ub up).1 = .structured [("balance", v)]) ∨
      (∃ m, (tokenBalanceHandler c ut ub up).1 =
        .structured [("error", .vstr ("Failed to get token balance: " ++ m))])) := by
  constructor
  · intro c now chain u
    simp only [tokensOneChainHandler]
    rcases hc : cacheGet c now (tokensOneChainKey chain) with _ | v
    · cases u with
      | error m => exact Or.inr ⟨m, rfl⟩
      | ok m =>
        rcases hl : List.lookup (tokensIndexKey chain) m with _ | l
        · refine Or.inr ⟨undefinedSliceMsg, ?_⟩
          simp only [hl]
        · refine Or.inl ⟨Value.varr (l.take 25), ?_⟩
          simp only [hl]
    · by_cases ht : truthy v
      · refine Or.inl ⟨v, ?_⟩
        simp only [if_pos ht]
      · cases u with
        | error m =>
          refine Or.inr ⟨m, ?_⟩
          simp only [if_neg ht]
        | ok m =>
          rcases hl : List.lookup (tokensIndexKey chain) m with _ | l
          · refine Or.inr ⟨undefinedSliceMsg, ?_⟩
            simp only [if_neg ht, hl]
          · refine Or.inl ⟨Value.varr (l.take 25), ?_⟩
            simp only [if_neg ht, hl]
  · intro c ut ub up
    cases ut with
    | error m => exact Or.inr ⟨m, rfl⟩
    | ok tv =>
      cases ub with
      | error m => exact Or.inr ⟨m, rfl⟩
      | ok bal =>
        rcases hp : up bal with m | v
        · refine Or.inr ⟨m, ?_⟩
          simp only [tokenBalanceHandler, tokenBalanceBody]
          rw [show ((do
            let _tokenObj ← Except.ok tv
            let b ← Except.ok bal
            up b : Except String Value)) = up bal from rfl, hp]
        · refine Or.inl ⟨v, ?_⟩
          simp only [tokenBalanceHandler, tokenBalanceBody]
          rw [show ((do
            let _tokenObj ← Except.ok tv
            let b ← Except.ok bal
            up b : Except String Value)) = up bal from rfl, hp]

/-- C9: On a cache miss with a successful upstream call, the
`tokens-one-chain` handler returns at most the first 25 tokens of the
upstream list for the requested chain — the serialized value is exactly
`take 25` of the upstream list, which is a prefix of length at most 25 — and
the `tokens-multiple-chains` handler truncates every chain entry of the
upstream map to its first 25 tokens; tokens past the 25th are silently
dropped in both. -/
theorem tokens_truncated_to_25 (c : Cache) (now : Nat) (chain : String)
    (m : List (String × List Value)) (l : List Value)
    (hmiss : cacheGet c now (tokensOneChainKey (some chain)) = none)
    (hl : List.lookup (tokensIndexKey (some chain)) m = some l) :
    (tokensOneChainHandler c now (some chain) (.ok m)).1 =
      .content (stringifyD (Value.varr (l.take 25))) ∧
    (l.take 25).length ≤ 25 ∧
    l.take 25 <+: l ∧
    (∀ mm : List (String × List Value),
      (tokensMultipleChainsHandler c (.ok mm)).1 =
        .content (stringifyD (Value.vobj [("tokens",
          Value.vobj ((mm.map (fun p => (p.1, p.2.take 25))).map
            (fun p => (p.1, Value.varr p.2))))])) ∧
      List.Forall₂ (fun p q => q.1 = p.1 ∧ q.2 = p.2.take 25) mm
        (mm.map (fun p => (p.1, p.2.take 25)))) := by
  refine ⟨?_, List.length_take_le 25 l, List.take_prefix 25 l, ?_⟩
  · simp only [tokensOneChainHandler, hmiss, hl]
  · intro mm
    refine ⟨rfl, ?_⟩
    induction mm with
    | nil => exact List.Forall₂.nil
    | cons p ps ih => exact List.Forall₂.cons ⟨rfl, rfl⟩ ih

/-- Witness for C9 at a concrete chain map. -/
theorem tokens_truncated_to_25_witness :
    (tokensOneChainHandler [] 0 (some "1") (.ok [("1", [Value.vnull])])).1 =
      .content (stringifyD (Value.varr ([Value.vnull].take 25))) ∧
    ([Value.vnull].take 25).length ≤ 25 ∧
    [Value.vnull].take 25 <+: [Value.vnull] ∧
    ((tokensMultipleChainsHandler [] (.ok [("2", [Value.vnull])])).1 =
        .content (stringifyD (Value.vobj [("tokens",
          Value.vobj (([("2", [Value.vnull])].map (fun p => (p.1, p.2.take 25))).map
            (fun p => (p.1, Value.varr p.2))))])) ∧
      List.Forall₂ (fun p q => q.1 = p.1 ∧ q.2 = p.2.take 25) [("2", [Value.vnull])]
        ([("2", [Value.vnull])].map (fun p => (p.1, p.2.take 25)))) :=
  have h := tokens_truncated_to_25 [] 0 "1" [("1", [Value.vnull])] [Value.vnull] rfl rfl
  ⟨h.1, h.2.1, h.2.2.1, h.2.2.2 [("2", [Value.vnull])]⟩

/-- C10: When the optional `chain` argument is absent, the per-chain index of
the `tokens-one-chain` handler uses the undefined chain (property key
`"undefined"`), so — provided the upstream token map has no `"undefined"`
chain and the cache holds no truthy value under `"tokens-all"`, which nothing
can store — the slice throws inside the `try`, the handler returns an error
envelope and never a token list, and the cache is left unchanged (in
particular nothing is stored under the `"tokens-all"` key). -/
theorem tokens_one_chain_absent_always_errors (c : Cache) (now : Nat)
    (uTokens : Except String (List (String × List Value)))
    (hcache : ∀ v, cacheGet c now "tokens-all" = some v → truthy v = false)
    (hup : ∀ m, uTokens = .ok m → List.lookup "undefined" m = none) :
    (∃ msg, (tokensOneChainHandler c now none uTokens).1 =
      .content ("Failed to get tokens: " ++ msg)) ∧
    (tokensOneChainHandler c now none uTokens).2.1 = c := by
  have hkey : tokensOneChainKey none = "tokens-all" := rfl
  rcases hc : cacheGet c now (tokensOneChainKey none) with _ | v
  · cases uTokens with
    | error m =>
      exact ⟨⟨m, by simp only [tokensOneChainHandler, hc]⟩,
        by simp only [tokensOneChainHandler, hc]⟩
    | ok m =>
      have hl : List.lookup (tokensIndexKey none) m = none := hup m rfl
      exact ⟨⟨undefinedSliceMsg, by simp only [tokensOneChainHandler, hc, hl]⟩,
        by simp only [tokensOneChainHandler, hc, hl]⟩
  · have ht : truthy v = false := hcache v (hkey ▸ hc)
    cases uTokens with
    | error m =>
      exact ⟨⟨m, by simp [tokensOneChainHandler, hc, ht]⟩,
        by simp [tokensOneChainHandler, hc, ht]⟩
    | ok m =>
      have hl : List.lookup (tokensIndexKey none) m = none := hup m rfl
      exact ⟨⟨undefinedSliceMsg, by simp [tokensOneChainHandler, hc, ht, hl]⟩,
        by simp [tokensOneChainHandler, hc, ht, hl]⟩

/-- Witness for C10 at a concrete upstream map and the empty cache. -/
theorem tokens_one_chain_absent_always_errors_witness :
    (∃ msg, (tokensOneChainHandler [] 0 none
        (.ok [("1", [Value.vnull])])).1 =
      .content ("Failed to get tokens: " ++ msg)) ∧
    (tokensOneChainHandler [] 0 none (.ok [("1", [Value.vnull])])).2.1 = [] :=
  tokens_one_chain_absent_always_errors [] 0 (.ok [("1", [Value.vnull])])
    (fun v h => by simp [cacheGet, List.lookup] at h)
    (fun m hm => by
      injection hm with hm2
      rw [← hm2]
      rfl)
